import Mathlib

/-!  Formal model of the transcription pipeline of `webui_deluxe.py` and
`webui.py` (whisper-studio-deluxe).  Every definition below is a shallow
embedding of the corresponding Python code; the external capabilities the
code drives (ffmpeg, ffprobe, whisper-cli, yt-dlp, the filesystem, the
fpdf library) are modelled as explicit inputs carried by environment
structures.  Durations and progress fractions are rationals; machine paths
are plain strings (relative to the script directory `ROOT`). -/

namespace WhisperStudio

/-- Python `f"{i:03d}"`: decimal rendering left-padded with zeros to width 3. -/
def pad3 (i : Nat) : String :=
  let s := toString i
  String.mk (List.replicate (3 - s.length) '0') ++ s

/-- Python `str.strip()`: remove leading and trailing whitespace. -/
def pyStrip (s : String) : String :=
  String.mk (((s.data.dropWhile Char.isWhitespace).reverse.dropWhile
    Char.isWhitespace).reverse)

/-- `math.ceil(D / T)` (`webui_deluxe.py` line 331), computed on the
rational's numerator and denominator with integer division so that concrete
runs evaluate inside the kernel; `ceilDivQ_eq` proves it equal to the
rational ceiling `⌈D / T⌉`. -/
def ceilDivQ (D : ℚ) (T : ℕ) : ℤ :=
  -(-D.num / ((D.den : ℤ) * (T : ℤ)))

/-- `ceilDivQ` is the rational ceiling of `D / T`. -/
theorem ceilDivQ_eq (D : ℚ) (T : ℕ) (hT : 0 < T) :
    ceilDivQ D T = ⌈D / (T : ℚ)⌉ := by
  have hden : ((D.den : ℚ)) ≠ 0 := Nat.cast_ne_zero.mpr (Rat.den_ne_zero D)
  have hT' : ((T : ℚ)) ≠ 0 := Nat.cast_ne_zero.mpr hT.ne'
  have hx : -(D / (T : ℚ)) = (((-D.num : ℤ) : ℚ)) / (((D.den * T : ℕ) : ℚ)) := by
    conv_lhs => rw [← Rat.num_div_den D]
    push_cast
    rw [div_div]
    ring
  have h2 : ⌈D / (T : ℚ)⌉ = -⌊-(D / (T : ℚ))⌋ := by
    rw [Int.floor_neg]
    ring
  rw [h2, hx, Rat.floor_intCast_div_natCast]
  unfold ceilDivQ
  congr 2

/-- One `ffmpeg` cut invocation issued by `split_long_audio`
(`webui_deluxe.py` lines 334-347): `-ss start`, `-t reqDur`, `-acodec copy`,
writing `path`. -/
structure Cut where
  start : ℚ
  reqDur : ℚ
  path : String
deriving DecidableEq

/-- The sequence of cut invocations `split_long_audio` issues for a media of
probed duration `D` seconds and chunk threshold `T` (`webui_deluxe.py`
lines 331-347): `n_chunks = math.ceil(duration / max_chunk_sec)`; chunk `i`
starts at `i * max_chunk_sec`, requests `max_chunk_sec` seconds and is named
`chunk_{i:03d}.wav` inside the run directory. -/
def splitChunkCuts (run_dir : String) (D : ℚ) (T : ℕ) : List Cut :=
  (List.range (Int.toNat (ceilDivQ D T))).map fun (i : ℕ) =>
    ⟨(i : ℚ) * T, (T : ℚ), run_dir ++ "/chunk_" ++ pad3 i ++ ".wav"⟩

/-- `split_long_audio` (`webui_deluxe.py` lines 322-349).  `D` is the value
returned by the duration prober for `audio_path`.  If the duration is ≤ the
threshold or ≤ 0 the original path is returned as the single segment (no
new file); otherwise the list of chunk output paths. -/
def split_long_audio (audio_path run_dir : String) (D : ℚ) (T : ℕ) : List String :=
  if D ≤ (T : ℚ) ∨ D ≤ 0 then [audio_path]
  else (splitChunkCuts run_dir D T).map Cut.path

/-- Interval of the source media actually covered by one cut, following the
external cut-without-re-encode contract (spec §6): `-ss s -t d` on media of
total duration `D` yields `[s, min (s + d) D)`. -/
def cutCover (D : ℚ) (c : Cut) : ℚ × ℚ :=
  (c.start, min (c.start + c.reqDur) D)

/-- The full statement of claim C1 for given inputs: single passthrough
segment when `D ≤ 0 ∨ D ≤ T`, otherwise `ceil(D/T)` cuts, the `i`-th
starting at `i·T`, covering `[i·T, min((i+1)·T, D))`, named by zero-padded
ordinal, pairwise contiguous, each non-empty, the last ending exactly
at `D`. -/
def C1Spec (audio_path run_dir : String) (D : ℚ) (T : ℕ) : Prop :=
  ((D ≤ 0 ∨ D ≤ (T : ℚ)) → split_long_audio audio_path run_dir D T = [audio_path]) ∧
  ((T : ℚ) < D →
    (splitChunkCuts run_dir D T).length = Int.toNat ⌈D / (T : ℚ)⌉ ∧
    split_long_audio audio_path run_dir D T = (splitChunkCuts run_dir D T).map Cut.path ∧
    (∀ i, ∀ h : i < (splitChunkCuts run_dir D T).length,
      (splitChunkCuts run_dir D T).get ⟨i, h⟩ =
        ⟨(i : ℚ) * T, (T : ℚ), run_dir ++ "/chunk_" ++ pad3 i ++ ".wav"⟩ ∧
      cutCover D ((splitChunkCuts run_dir D T).get ⟨i, h⟩) =
        ((i : ℚ) * T, min (((i : ℚ) + 1) * T) D) ∧
      (i : ℚ) * T < min (((i : ℚ) + 1) * T) D ∧
      (i + 1 < (splitChunkCuts run_dir D T).length →
        min (((i : ℚ) + 1) * T) D = ((i : ℚ) + 1) * T)) ∧
    min ((Int.toNat ⌈D / (T : ℚ)⌉ : ℚ) * T) D = D ∧
    1 ≤ (splitChunkCuts run_dir D T).length)

/-- C1: for every probed duration `D` and positive threshold `T`,
`split_long_audio` returns exactly one segment equal to the original input
path when `D ≤ 0` or `D ≤ T`, and otherwise `ceil(D/T)` zero-padded-named
segment cuts whose covered intervals are contiguous, non-overlapping and
cover `[0, D)` exactly. -/
theorem split_long_audio_segments (audio_path run_dir : String) (D : ℚ) (T : ℕ)
    (hT : 0 < T) : C1Spec audio_path run_dir D T := by
  have ht : (0 : ℚ) < (T : ℚ) := by exact_mod_cast hT
  constructor
  · intro h
    have : D ≤ (T : ℚ) ∨ D ≤ 0 := h.symm
    simp [split_long_audio, this]
  · intro hTD
    have hD : 0 < D := ht.trans hTD
    have hcond : ¬(D ≤ (T : ℚ) ∨ D ≤ 0) := by
      push_neg
      exact ⟨hTD, hD⟩
    have hceilpos : 0 < ⌈D / (T : ℚ)⌉ := Int.ceil_pos.mpr (div_pos hD ht)
    have hn : ((Int.toNat ⌈D / (T : ℚ)⌉ : ℤ)) = ⌈D / (T : ℚ)⌉ :=
      Int.toNat_of_nonneg hceilpos.le
    have hlen : (splitChunkCuts run_dir D T).length = Int.toNat ⌈D / (T : ℚ)⌉ := by
      simp [splitChunkCuts, ceilDivQ_eq D T hT]
    refine ⟨hlen, ?_, ?_, ?_, ?_⟩
    · simp [split_long_audio, hcond]
    · intro i h
      have hi : i < Int.toNat ⌈D / (T : ℚ)⌉ := hlen ▸ h
      -- `i·T < D`, from `i < ⌈D/T⌉`
      have hiZ : (i : ℤ) < ⌈D / (T : ℚ)⌉ := by omega
      have hiQ : (i : ℚ) < D / (T : ℚ) := by
        have := Int.lt_ceil.mp hiZ
        exact_mod_cast this
      have hitD : (i : ℚ) * T < D := (lt_div_iff₀ ht).mp hiQ
      have hget : (splitChunkCuts run_dir D T).get ⟨i, h⟩ =
          ⟨(i : ℚ) * T, (T : ℚ), run_dir ++ "/chunk_" ++ pad3 i ++ ".wav"⟩ := by
        simp [splitChunkCuts, List.get_eq_getElem]
      refine ⟨hget, ?_, ?_, ?_⟩
      · rw [hget]
        simp [cutCover]
        ring_nf
      · have h1 : (i : ℚ) * T < ((i : ℚ) + 1) * T := by nlinarith
        exact lt_min h1 hitD
      · intro hi1
        have hi1' : i + 1 < Int.toNat ⌈D / (T : ℚ)⌉ := hlen ▸ hi1
        have hi1Z : ((i : ℤ) + 1) < ⌈D / (T : ℚ)⌉ := by omega
        have hi1Q : ((i : ℚ) + 1) < D / (T : ℚ) := by
          have := Int.lt_ceil.mp hi1Z
          push_cast at this
          exact_mod_cast this
        have : ((i : ℚ) + 1) * T < D := (lt_div_iff₀ ht).mp hi1Q
        exact min_eq_left this.le
    · have hle : D / (T : ℚ) ≤ ((Int.toNat ⌈D / (T : ℚ)⌉ : ℚ)) := by
        have h1 : D / (T : ℚ) ≤ ((⌈D / (T : ℚ)⌉ : ℤ) : ℚ) := Int.le_ceil _
        have h2 : (((Int.toNat ⌈D / (T : ℚ)⌉ : ℤ)) : ℚ) = ((Int.toNat ⌈D / (T : ℚ)⌉ : ℚ)) := by
          push_cast
          ring
        rw [← h2]
        rw [hn]
        exact h1
      have : D ≤ ((Int.toNat ⌈D / (T : ℚ)⌉ : ℚ)) * T := (div_le_iff₀ ht).mp hle
      exact min_eq_right this
    · rw [hlen]
      omega

/-- Witness for C1 at the spec scenario: duration 9000 s, threshold 7200 s. -/
theorem split_long_audio_segments_witness :
    0 < 7200 ∧ C1Spec "outputs/r/audio.wav" "outputs/r" 9000 7200 :=
  ⟨by decide, split_long_audio_segments "outputs/r/audio.wav" "outputs/r" 9000 7200 (by decide)⟩

/-! ## Duration prober (`get_media_duration_seconds`, lines 286-299) -/

/-- `get_media_duration_seconds` (`webui_deluxe.py` lines 286-299).
The external `ffprobe` invocation is modelled by `probeOut`: `none` when
`subprocess.check_output` raised (non-zero exit or missing tool), otherwise
the decoded standard output.  Python's `float` parser is the parameter
`parseFloat` (`none` models a raised `ValueError`).  Both failure paths run
into the single `except` clause, which returns `0.0`. -/
def get_media_duration_seconds (parseFloat : String → Option ℚ)
    (probeOut : Option String) : ℚ :=
  match probeOut with
  | none => 0
  | some out =>
    match parseFloat (pyStrip out) with
    | some v => v
    | none => 0

/-- C7: whenever the probe invocation fails or its output does not parse as
a float, `get_media_duration_seconds` returns exactly `0.0`; the failure is
absorbed, never propagated. -/
theorem media_duration_failure_zero (parseFloat : String → Option ℚ)
    (probeOut : Option String)
    (hfail : probeOut = none ∨ ∃ s, probeOut = some s ∧ parseFloat (pyStrip s) = none) :
    get_media_duration_seconds parseFloat probeOut = 0 := by
  rcases hfail with h | ⟨s, hs, hp⟩
  · simp [get_media_duration_seconds, h]
  · simp [get_media_duration_seconds, hs, hp]

/-- Witness for C7: a raised probe invocation yields duration `0`. -/
theorem media_duration_failure_zero_witness :
    get_media_duration_seconds (fun _ => some 3) none = 0 :=
  media_duration_failure_zero (fun _ => some 3) none (Or.inl rfl)

/-! ## Run-history update (`transcribe`, lines 265-268) -/

/-- The history update a successful run performs (`webui_deluxe.py` lines
265-267): `history.insert(0, entry)` followed by `history = history[:10]` —
prepend, then truncate to 10 entries. -/
def record (history : List String) (entry : String) : List String :=
  (entry :: history).take 10

/-- Truncating the right operand of an append below the truncation width
changes nothing. -/
theorem take_append_take (n : ℕ) (a b : List String) :
    (a ++ b.take n).take n = (a ++ b).take n := by
  rw [List.take_append_eq_append_take, List.take_append_eq_append_take,
    List.take_take]
  congr 1
  simp

/-- Folding `record` over a non-empty batch of entries yields the reversed
batch prefixed to the old history, truncated to 10. -/
theorem record_foldl : ∀ (es : List String) (h : List String), es ≠ [] →
    es.foldl record h = (es.reverse ++ h).take 10
  | [], _, hne => absurd rfl hne
  | [e], h, _ => by simp [record]
  | e :: e2 :: es2, h, _ => by
    rw [List.foldl_cons]
    rw [record_foldl (e2 :: es2) (record h e) (by simp)]
    show ((e2 :: es2).reverse ++ (e :: h).take 10).take 10 =
      ((e :: e2 :: es2).reverse ++ h).take 10
    rw [take_append_take]
    simp [List.reverse_cons, List.append_assoc]

/-- C4: after more than 10 recorded completions, the history is exactly the
10 most recent entries, most-recent-first, independently of the initial
history. -/
theorem record_history_bounded (h0 : List String) (es : List String)
    (hN : 10 < es.length) :
    es.foldl record h0 = es.reverse.take 10 ∧ (es.foldl record h0).length = 10 := by
  have hne : es ≠ [] := by
    intro h
    rw [h] at hN
    simp at hN
  have hmain : es.foldl record h0 = es.reverse.take 10 := by
    rw [record_foldl es h0 hne]
    rw [List.take_append_of_le_length]
    simp
    omega
  refine ⟨hmain, ?_⟩
  rw [hmain]
  simp
  omega

/-- Witness for C4: 11 recorded runs leave exactly the latest 10,
newest first. -/
theorem record_history_bounded_witness :
    10 < (["r1", "r2", "r3", "r4", "r5", "r6", "r7", "r8", "r9", "r10", "r11"] : List String).length ∧
    (["r1", "r2", "r3", "r4", "r5", "r6", "r7", "r8", "r9", "r10", "r11"] : List String).foldl record [] =
      (["r1", "r2", "r3", "r4", "r5", "r6", "r7", "r8", "r9", "r10", "r11"] : List String).reverse.take 10 ∧
    ((["r1", "r2", "r3", "r4", "r5", "r6", "r7", "r8", "r9", "r10", "r11"] : List String).foldl record []).length = 10 :=
  ⟨by decide, record_history_bounded []
    ["r1", "r2", "r3", "r4", "r5", "r6", "r7", "r8", "r9", "r10", "r11"] (by decide)⟩

/-! ## Engine command line (`run_whisper` lines 57-72, `webui.py` lines 23-35) -/

/-- Path of the engine binary, `ROOT / "build" / "bin" / "whisper-cli"`
(both files), relative to `ROOT`. -/
def WHISPER_BIN : String := "build/bin/whisper-cli"

/-- Path of the model file, `ROOT / "models" / "ggml-small.bin"` (both
files), relative to `ROOT`. -/
def MODEL_PATH : String := "models/ggml-small.bin"

/-- The language arguments appended to the engine command line
(`webui_deluxe.py` lines 65-66 and identically `webui.py` lines 31-32):
`if language and language.strip(): cmd += ["-l", language.strip()]`.
`none` models Python `None`; truthiness of a string is non-emptiness. -/
def langArgs (language : Option String) : List String :=
  match language with
  | none => []
  | some l => if l ≠ "" ∧ pyStrip l ≠ "" then ["-l", pyStrip l] else []

/-- The engine command line built per chunk by `run_whisper`
(`webui_deluxe.py` lines 57-72). -/
def buildWhisperCmd (chunk base : String) (language : Option String)
    (make_srt make_json : Bool) : List String :=
  [WHISPER_BIN, "-m", MODEL_PATH, "-f", chunk, "-otxt", "-of", base]
    ++ langArgs language
    ++ (if make_srt then ["-osrt"] else [])
    ++ (if make_json then ["-oj"] else [])

/-- The engine command line built by `transcribe` in `webui.py`
(lines 23-35). -/
def buildWebuiCmd (audio_file base : String) (language : Option String)
    (make_srt : Bool) : List String :=
  [WHISPER_BIN, "-m", MODEL_PATH, "-f", audio_file, "-otxt", "-of", base]
    ++ langArgs language
    ++ (if make_srt then ["-osrt"] else [])

/-- The statement of claim C6 for given inputs: a `None`/empty/whitespace
hint leaves the command line without any `-l` argument, any other hint puts
the stripped hint right after `-l`, in both UIs. -/
def C6Spec (language : Option String) (chunk base : String)
    (make_srt make_json : Bool) : Prop :=
  ((language = none ∨ ∃ l, language = some l ∧ pyStrip l = "") →
    "-l" ∉ buildWhisperCmd chunk base language make_srt make_json ∧
    "-l" ∉ buildWebuiCmd chunk base language make_srt) ∧
  (∀ l, language = some l → pyStrip l ≠ "" →
    List.IsInfix ["-l", pyStrip l] (buildWhisperCmd chunk base language make_srt make_json) ∧
    List.IsInfix ["-l", pyStrip l] (buildWebuiCmd chunk base language make_srt))

/-- If the stripped hint is nonempty, the original hint is nonempty too. -/
theorem strip_ne_of_ne (l : String) (h : pyStrip l ≠ "") : l ≠ "" := by
  intro he
  rw [he] at h
  exact h (by decide)

/-- Membership in the per-chunk deluxe command line, by boolean cases. -/
theorem mem_buildWhisperCmd (x chunk base : String) (language : Option String)
    (make_srt make_json : Bool) :
    x ∈ buildWhisperCmd chunk base language make_srt make_json ↔
      x = WHISPER_BIN ∨ x = "-m" ∨ x = MODEL_PATH ∨ x = "-f" ∨ x = chunk ∨
      x = "-otxt" ∨ x = "-of" ∨ x = base ∨ x ∈ langArgs language ∨
      (make_srt = true ∧ x = "-osrt") ∨ (make_json = true ∧ x = "-oj") := by
  cases make_srt <;> cases make_json <;>
    simp [buildWhisperCmd]

/-- Membership in the simple-UI command line, by boolean cases. -/
theorem mem_buildWebuiCmd (x audio_file base : String) (language : Option String)
    (make_srt : Bool) :
    x ∈ buildWebuiCmd audio_file base language make_srt ↔
      x = WHISPER_BIN ∨ x = "-m" ∨ x = MODEL_PATH ∨ x = "-f" ∨ x = audio_file ∨
      x = "-otxt" ∨ x = "-of" ∨ x = base ∨ x ∈ langArgs language ∨
      (make_srt = true ∧ x = "-osrt") := by
  cases make_srt <;> simp [buildWebuiCmd]

/-- C6: empty/`None`/whitespace-only language hints are omitted from the
engine invocation (no `-l` flag at all); any other hint is passed stripped,
immediately after `-l`, in both `webui_deluxe.py` and `webui.py`. -/
theorem language_hint_omitted_or_passed (language : Option String)
    (chunk base : String) (make_srt make_json : Bool)
    (hc : chunk ≠ "-l") (hb : base ≠ "-l") :
    C6Spec language chunk base make_srt make_json := by
  constructor
  · intro hblank
    have hargs : langArgs language = [] := by
      rcases hblank with h | ⟨l, hl, ht⟩
      · simp [langArgs, h]
      · simp [langArgs, hl, ht]
    constructor
    · intro hmem
      rw [mem_buildWhisperCmd] at hmem
      rw [hargs] at hmem
      rcases hmem with h | h | h | h | h | h | h | h | h | ⟨_, h⟩ | ⟨_, h⟩
      all_goals first
        | exact absurd h (by decide)
        | exact hc h.symm
        | exact hb h.symm
    · intro hmem
      rw [mem_buildWebuiCmd] at hmem
      rw [hargs] at hmem
      rcases hmem with h | h | h | h | h | h | h | h | h | ⟨_, h⟩
      all_goals first
        | exact absurd h (by decide)
        | exact hc h.symm
        | exact hb h.symm
  · intro l hl htrim
    have hlne : l ≠ "" := strip_ne_of_ne l htrim
    have hargs : langArgs language = ["-l", pyStrip l] := by
      rw [hl]
      show (if l ≠ "" ∧ pyStrip l ≠ "" then ["-l", pyStrip l] else []) = _
      rw [if_pos ⟨hlne, htrim⟩]
    constructor
    · refine ⟨[WHISPER_BIN, "-m", MODEL_PATH, "-f", chunk, "-otxt", "-of", base],
        (if make_srt then ["-osrt"] else []) ++ (if make_json then ["-oj"] else []), ?_⟩
      simp [buildWhisperCmd, hargs]
    · refine ⟨[WHISPER_BIN, "-m", MODEL_PATH, "-f", chunk, "-otxt", "-of", base],
        (if make_srt then ["-osrt"] else []), ?_⟩
      simp [buildWebuiCmd, hargs]

/-- Witness for C6 with the hint `" fr "` and segment 0 of a run. -/
theorem language_hint_omitted_or_passed_witness :
    ("outputs/r/chunk_000.wav" ≠ "-l" ∧ "outputs/r/transcript_000" ≠ "-l") ∧
    C6Spec (some " fr ") "outputs/r/chunk_000.wav" "outputs/r/transcript_000" true false :=
  ⟨⟨by decide, by decide⟩,
    language_hint_omitted_or_passed (some " fr ") "outputs/r/chunk_000.wav"
      "outputs/r/transcript_000" true false (by decide) (by decide)⟩

/-! ## The pipeline (`run_whisper` lines 27-102, `transcribe` lines 206-283) -/

/-- Fixed output root, `ROOT / "outputs"` (`webui_deluxe.py` line 17). -/
def OUTPUT_DIR : String := "outputs"

/-- The per-run working directory, `OUTPUT_DIR / run_id` (lines 28, 188). -/
def runDirOf (run_id : String) : String := OUTPUT_DIR ++ "/" ++ run_id

/-- The per-chunk output basename, `run_dir / f"transcript_{idx:03d}"`
(line 53). -/
def transcriptBase (run_dir : String) (idx : ℕ) : String :=
  run_dir ++ "/transcript_" ++ pad3 idx

/-- Outcome of one engine invocation (`subprocess.run` on the whisper-cli
command, line 78, plus the sibling files the engine left behind):
exit status, captured streams, and the artifacts found on disk afterwards
(`txtContent = none` models an absent `.txt` file). -/
structure EngineResult where
  returncode : ℤ
  stdout : String
  stderr : String
  txtContent : Option String
  srtExists : Bool
  jsonExists : Bool
deriving DecidableEq

/-- The `RuntimeError` message raised on a non-zero engine exit
(lines 79-81): `res.stderr or res.stdout` picks stderr when non-empty. -/
def engineErr (idx : ℕ) (r : EngineResult) : String :=
  "Erreur WhisperCLI (chunk " ++ toString (idx + 1) ++ "):\n" ++
    (if r.stderr = "" then r.stdout else r.stderr)

/-- The progress event emitted before transcribing chunk `idx` of `n`
(lines 74-76): fraction `0.1 + 0.8 * (idx / max(n_chunks, 1))`. -/
def evChunk (n idx : ℕ) : ℚ × String :=
  (1/10 + 8/10 * ((idx : ℚ) / ((max n 1 : ℕ) : ℚ)),
   "Transcription chunk " ++ toString (idx + 1) ++ "/" ++ toString n ++ "...")

/-- Per-chunk accumulators of `run_whisper` (lines 47-50): collected text
contents and artifact file paths, in chunk order. -/
structure ChunkAcc where
  full_text : List String
  txt_files : List String
  srt_files : List String
  json_files : List String
deriving DecidableEq

/-- The body of the `for idx, chunk in enumerate(chunks)` loop of
`run_whisper` (lines 52-94), processing the given chunk indices in order:
emit the progress event, invoke the engine (modelled by `engine`), raise on
a non-zero exit (`.error`, discarding the accumulators, as the Python
exception does), otherwise record whichever artifacts exist.  Also returns
the progress events emitted, for the observability claims. -/
def chunkLoop (engine : ℕ → EngineResult) (run_dir : String) (n : ℕ) :
    List ℕ → List (ℚ × String) × Except String ChunkAcc
  | [] => ([], .ok ⟨[], [], [], []⟩)
  | idx :: rest =>
    let ev := evChunk n idx
    let r := engine idx
    if r.returncode ≠ 0 then
      ([ev], .error (engineErr idx r))
    else
      let step := chunkLoop engine run_dir n rest
      (ev :: step.1,
        match step.2 with
        | .error e => .error e
        | .ok acc =>
          .ok ⟨(match r.txtContent with
                | some t => t :: acc.full_text
                | none => acc.full_text),
               (if r.txtContent.isSome then
                 (transcriptBase run_dir idx ++ ".txt") :: acc.txt_files
                else acc.txt_files),
               (if r.srtExists then
                 (transcriptBase run_dir idx ++ ".srt") :: acc.srt_files
                else acc.srt_files),
               (if r.jsonExists then
                 (transcriptBase run_dir idx ++ ".json") :: acc.json_files
                else acc.json_files)⟩)

/-- The external behaviour one `run_whisper` call observes:
`extractResult` is the `ffmpeg` extraction (`subprocess.run(..., check=True)`,
line 318; `.error` carries the `CalledProcessError` text), `duration` the
`ffprobe` answer for the extracted `audio.wav` (lines 40 and 327), and
`engine` the whisper-cli invocation per chunk index. -/
structure RunEnv where
  extractResult : Except String Unit
  duration : ℚ
  engine : ℕ → EngineResult

/-- Successful result of `run_whisper` (line 102): the joined text, the
per-chunk artifact paths and the probed duration. -/
structure RWResult where
  text : String
  txt_files : List String
  srt_files : List String
  json_files : List String
  duration : ℚ
deriving DecidableEq

/-- `run_whisper` (`webui_deluxe.py` lines 27-102): extract audio, probe the
duration, split into chunks, transcribe each chunk sequentially, join the
collected texts with a blank line (`"\n\n".join(full_text)`, line 97).
First component: the progress events emitted (the code always receives a
progress sink from `transcribe`).  `.error` models an uncaught exception. -/
def run_whisper (renv : RunEnv) (language : Option String)
    (make_srt make_json : Bool) (run_id : String) :
    List (ℚ × String) × Except String RWResult :=
  let run_dir := runDirOf run_id
  let ev0 : ℚ × String := (5/100, "Extraction audio...")
  match renv.extractResult with
  | .error e => ([ev0], .error e)
  | .ok _ =>
    let audio_path := run_dir ++ "/audio.wav"
    let chunks := split_long_audio audio_path run_dir renv.duration 7200
    let n := chunks.length
    let step := chunkLoop renv.engine run_dir n (List.range n)
    match step.2 with
    | .error e => (ev0 :: step.1, .error e)
    | .ok acc =>
      (ev0 :: (step.1 ++ [(95/100, "Finalisation...")]),
       .ok ⟨String.intercalate "\n\n" acc.full_text,
            acc.txt_files, acc.srt_files, acc.json_files, renv.duration⟩)

/-! ## Document renderer (`make_pdf_from_text`, lines 105-184) -/

/-- Availability of the optional visual assets `make_pdf_from_text` tries to
load (lines 124-141): whether each `pdf.add_font` call succeeded and whether
`logo.png` exists. -/
structure PdfAssets where
  robotoRegularOk : Bool
  robotoBoldOk : Bool
  robotoMonoOk : Bool
  logoExists : Bool
deriving DecidableEq

/-- Abstract rendered document: output path, whether the logo was drawn,
the fonts selected for title and body (family, style), and the trimmed
paragraphs laid out (empty ones becoming vertical spacing, lines 166-181). -/
structure PdfDoc where
  path : String
  hasLogo : Bool
  titleFont : String × String
  bodyFont : String × String
  paragraphs : List String
deriving DecidableEq

/-- `make_pdf_from_text` (`webui_deluxe.py` lines 105-184).  Each
`pdf.add_font` is wrapped in `try/except: pass` (lines 124-135), the logo is
drawn only if the file exists (lines 138-142), and each `pdf.set_font`
falls back to Helvetica when the Roboto variant was not registered
(lines 145-158).  No asset failure can abort the render: the function is
total and always yields the document at `run_dir/transcript.pdf`. -/
def make_pdf_from_text (assets : PdfAssets) (text : String) (run_dir : String) :
    PdfDoc :=
  { path := run_dir ++ "/transcript.pdf"
    hasLogo := assets.logoExists
    titleFont := if assets.robotoBoldOk then ("Roboto", "B") else ("Helvetica", "B")
    bodyFont := if assets.robotoRegularOk then ("Roboto", "") else ("Helvetica", "")
    paragraphs := (text.splitOn "\n").map pyStrip }

/-! ## Run-directory allocation (`transcribe` line 214, `run_whisper` lines 28-29) -/

/-- How the code allocates the working directory for a run identifier:
`run_id = datetime.now().strftime("%Y%m%d_%H%M%S")` (seconds resolution,
line 214) followed by `run_dir.mkdir(exist_ok=True)` (lines 29 and 189).
`existing` is the set of directories already present under the output root;
`mkdir(exist_ok=True)` succeeds silently whether or not the directory is
already there, so the call can never fail on a collision.  Returns the
directory used and the updated filesystem state. -/
def mkRunDir (existing : List String) (run_id : String) :
    Except String (String × List String) :=
  .ok (runDirOf run_id,
    if runDirOf run_id ∈ existing then existing else runDirOf run_id :: existing)

/-! ## The invocation surface (`transcribe`, lines 206-283) -/

/-- External behaviour observed by one `transcribe` call: existence of the
engine binary and the model file (lines 207, 210), the YouTube download
outcome (`download_youtube_audio`, lines 187-203; `.error` models a raised
download exception), the `run_whisper` environment, the optional-asset state
for the PDF, and whether `pdf.output` succeeds (`pdfWriteError = some e`
models a raised rendering exception caught by the generic handler). -/
structure TEnv where
  binExists : Bool
  modelExists : Bool
  download : Except String String
  run : RunEnv
  pdfAssets : PdfAssets
  pdfWriteError : Option String

/-- The seven values `transcribe` returns (text box, four artifact file
references, history state, history markdown), plus instrumentation:
`success` is true exactly on the one fully successful return (line 273)
and `events` lists the `(fraction, description)` progress pairs emitted. -/
structure TOut where
  text : String
  txtRef : Option String
  srtRef : Option String
  pdfRef : Option String
  jsonRef : Option String
  history : List String
  historyMd : String
  success : Bool
  events : List (ℚ × String)
deriving DecidableEq

/-- Python truthiness of an optional string (`None` and `""` are falsy). -/
def strTruthy : Option String → Bool
  | none => false
  | some s => !s.isEmpty

/-- The `if youtube_url and youtube_url.strip():` test (line 222). -/
def urlRequested (youtube_url : Option String) : Bool :=
  match youtube_url with
  | none => false
  | some u => !u.isEmpty && !(pyStrip u).isEmpty

/-- `Path(p).name`: the final component of a path (line 229). -/
def baseName (p : String) : String :=
  match (p.splitOn "/").getLast? with
  | some t => t
  | none => p

/-- Python `"%.1f"`-style rendering of a non-negative rational with one
decimal digit (approximating the float formatting on line 251; no claim
depends on the exact digits). -/
def fmt1 (q : ℚ) : String :=
  let n : ℤ := ⌊q * 10 + 1/2⌋
  toString (n / 10) ++ "." ++ toString (n % 10)

/-- The estimation banner (lines 246-253): present only when the probed
duration is positive; `est_factor = 0.7`, minutes/seconds by integer
truncation of the non-negative estimate. -/
def estimationText (duration : ℚ) : String :=
  if 0 < duration then
    let est := duration * (7/10)
    "(Durée audio ~ " ++ fmt1 (duration / 60) ++
      " min, temps de traitement estimé ~ " ++ toString ⌊est / 60⌋ ++
      " min " ++ toString (⌊est⌋ % 60) ++ " s)\n\n"
  else ""

/-- The tail of `transcribe` shared by both source kinds (lines 235-283):
run the pipeline, build the estimation banner, render the PDF if asked,
pick the first artifact of each kind for download, record the run in the
history and emit the final progress event.  Any `.error` escaping a stage
lands in the `except` clause (lines 280-283), which returns the error text,
no artifacts, the incoming history and an empty history markdown. -/
def pipelineTail (env : TEnv) (language : Option String)
    (make_srt make_json make_pdf : Bool) (history : List String)
    (run_id nowHMS sourceDesc : String)
    (ev : List (ℚ × String)) : TOut :=
  match run_whisper env.run language make_srt make_json run_id with
  | (rwEvents, .error e) =>
    ⟨"Erreur pendant le traitement : " ++ e, none, none, none, none,
     history, "", false, ev ++ rwEvents⟩
  | (rwEvents, .ok r) =>
    let events := ev ++ rwEvents
    match (if make_pdf then env.pdfWriteError else none) with
    | some e =>
      ⟨"Erreur pendant le traitement : " ++ e, none, none, none, none,
       history, "", false, events⟩
    | none =>
      let pdfRef : Option String :=
        if make_pdf then
          some (make_pdf_from_text env.pdfAssets r.text (runDirOf run_id)).path
        else none
      let entry := "- " ++ nowHMS ++ " · " ++ sourceDesc ++ " · id=" ++ run_id
      let history2 := record history entry
      ⟨estimationText r.duration ++
         (if r.text = "" then "(Transcription vide)" else r.text),
       r.txt_files.head?, r.srt_files.head?, pdfRef, r.json_files.head?,
       history2, String.intercalate "\n" history2, true,
       events ++ [(1, "Terminé ✅")]⟩

/-- `transcribe` (`webui_deluxe.py` lines 206-283), the pipeline invocation
surface wired to the UI.  The guards on the binary and the model return
before any run identifier is allocated; the source is a YouTube URL when
`urlRequested`, else the uploaded file when truthy, else an early return.
`run_id` models `datetime.now().strftime("%Y%m%d_%H%M%S")` and `nowHMS`
the history timestamp `datetime.now().strftime("%H:%M:%S")`. -/
def transcribe (env : TEnv) (media_file youtube_url language : Option String)
    (make_srt make_json make_pdf : Bool) (history : List String)
    (run_id nowHMS : String) : TOut :=
  if !env.binExists then
    ⟨"Binaire introuvable : " ++ WHISPER_BIN, none, none, none, none,
     history, "", false, []⟩
  else if !env.modelExists then
    ⟨"Modèle introuvable : " ++ MODEL_PATH, none, none, none, none,
     history, "", false, []⟩
  else
    let ev1 : List (ℚ × String) := [(1/100, "Préparation...")]
    if urlRequested youtube_url then
      let sourceDesc := "YouTube: " ++ pyStrip (youtube_url.getD "")
      let ev2 := ev1 ++ [(5/100, "Téléchargement YouTube...")]
      match env.download with
      | .error e =>
        ⟨"Erreur pendant le traitement : " ++ e, none, none, none, none,
         history, "", false, ev2⟩
      | .ok _p =>
        pipelineTail env language make_srt make_json make_pdf history run_id nowHMS sourceDesc ev2
    else if strTruthy media_file then
      let sourceDesc := "Fichier upload: " ++ baseName (media_file.getD "")
      pipelineTail env language make_srt make_json make_pdf history run_id nowHMS sourceDesc ev1
    else
      ⟨"Aucun fichier ni URL fournie.", none, none, none, none,
       history, "", false, ev1⟩

/-! ## Behaviour of the chunk loop -/

/-- The number of chunks a run processes: the length of the split of the
extracted `audio.wav` at the fixed 7200 s threshold (lines 43-44). -/
def nChunks (renv : RunEnv) (run_id : String) : ℕ :=
  (split_long_audio (runDirOf run_id ++ "/audio.wav") (runDirOf run_id)
    renv.duration 7200).length

/-- The splitter always returns at least one segment. -/
theorem nChunks_pos (renv : RunEnv) (run_id : String) : 1 ≤ nChunks renv run_id := by
  unfold nChunks split_long_audio
  split
  · simp
  · next hcond =>
    push_neg at hcond
    have hD : (0 : ℚ) < renv.duration := hcond.2
    have hpos : 0 < ⌈renv.duration / ((7200 : ℕ) : ℚ)⌉ :=
      Int.ceil_pos.mpr (div_pos hD (by norm_num))
    simp only [splitChunkCuts, List.length_map, List.length_range]
    rw [ceilDivQ_eq renv.duration 7200 (by norm_num)]
    omega

/-- When every chunk's engine invocation exits 0, the loop emits one
progress event per chunk, in order, and accumulates exactly the artifacts
the engine produced, in chunk order. -/
theorem chunkLoop_ok (engine : ℕ → EngineResult) (run_dir : String) (n : ℕ) :
    ∀ l : List ℕ, (∀ i ∈ l, (engine i).returncode = 0) →
    chunkLoop engine run_dir n l =
      (l.map (evChunk n),
       .ok ⟨l.filterMap (fun i => (engine i).txtContent),
            l.filterMap (fun i => if (engine i).txtContent.isSome then
              some (transcriptBase run_dir i ++ ".txt") else none),
            l.filterMap (fun i => if (engine i).srtExists then
              some (transcriptBase run_dir i ++ ".srt") else none),
            l.filterMap (fun i => if (engine i).jsonExists then
              some (transcriptBase run_dir i ++ ".json") else none)⟩)
  | [], _ => by simp [chunkLoop]
  | idx :: rest, h => by
    have h0 : (engine idx).returncode = 0 := h idx (by simp)
    have hrest := chunkLoop_ok engine run_dir n rest (fun i hi => h i (by simp [hi]))
    simp only [chunkLoop, h0, ne_eq, not_true_eq_false, if_false, hrest,
      List.map_cons, List.filterMap_cons]
    rcases htc : (engine idx).txtContent with _ | t <;>
      rcases hsrt : (engine idx).srtExists <;>
        rcases hjson : (engine idx).jsonExists <;>
          simp [htc, hsrt, hjson]

/-- If the loop returns successfully, the events it emitted are exactly one
per chunk index, in order. -/
theorem chunkLoop_ok_events (engine : ℕ → EngineResult) (run_dir : String) (n : ℕ) :
    ∀ (l : List ℕ) (evs : List (ℚ × String)) (acc : ChunkAcc),
    chunkLoop engine run_dir n l = (evs, .ok acc) → evs = l.map (evChunk n)
  | [], evs, acc, h => by
    have h1 := congrArg Prod.fst h
    simp [chunkLoop] at h1
    simp [← h1]
  | idx :: rest, evs, acc, h => by
    by_cases h0 : (engine idx).returncode = 0
    · rcases hst : chunkLoop engine run_dir n rest with ⟨evs2, res2⟩
      have h1 := congrArg Prod.fst h
      have h2 := congrArg Prod.snd h
      simp only [chunkLoop, h0, ne_eq, not_true_eq_false, if_false, hst] at h1 h2
      rcases res2 with e | acc2
      · simp at h2
      · have hrec := chunkLoop_ok_events engine run_dir n rest evs2 acc2 hst
        rw [List.map_cons, ← hrec, ← h1]
    · have h2 := congrArg Prod.snd h
      simp only [chunkLoop, if_pos h0] at h2
      simp at h2

/-- If the first failing chunk index `k` lies inside the processed range,
the loop raises exactly the chunk-`k` engine error. -/
theorem chunkLoop_fail (engine : ℕ → EngineResult) (run_dir : String) (n k : ℕ)
    (hok : ∀ i, i < k → (engine i).returncode = 0)
    (hfail : (engine k).returncode ≠ 0) :
    ∀ (m s : ℕ), s ≤ k → k < s + m →
    ∃ evs, chunkLoop engine run_dir n (List.range' s m) =
      (evs, .error (engineErr k (engine k)))
  | 0, s, hs, hlt => by omega
  | m + 1, s, hs, hlt => by
    rcases eq_or_lt_of_le hs with heq | hlt2
    · subst heq
      exact ⟨[evChunk n s], by simp [List.range', chunkLoop, hfail]⟩
    · have h0 : (engine s).returncode = 0 := hok s hlt2
      obtain ⟨evs2, h2⟩ :=
        chunkLoop_fail engine run_dir n k hok hfail m (s + 1) (by omega) (by omega)
      refine ⟨evChunk n s :: evs2, ?_⟩
      simp [List.range', chunkLoop, h0, h2]

/-- A successful `run_whisper` call emits extraction, one event per chunk in
order, then finalisation, and joins the collected texts. -/
theorem run_whisper_ok (renv : RunEnv) (language : Option String)
    (make_srt make_json : Bool) (run_id : String)
    (hex : renv.extractResult = .ok ())
    (hall : ∀ i, i < nChunks renv run_id → (renv.engine i).returncode = 0) :
    run_whisper renv language make_srt make_json run_id =
      ((5/100, "Extraction audio...") ::
        ((List.range (nChunks renv run_id)).map (evChunk (nChunks renv run_id)) ++
          [(95/100, "Finalisation...")]),
       .ok ⟨String.intercalate "\n\n" ((List.range (nChunks renv run_id)).filterMap
              fun i => (renv.engine i).txtContent),
            (List.range (nChunks renv run_id)).filterMap (fun i =>
              if (renv.engine i).txtContent.isSome then
                some (transcriptBase (runDirOf run_id) i ++ ".txt") else none),
            (List.range (nChunks renv run_id)).filterMap (fun i =>
              if (renv.engine i).srtExists then
                some (transcriptBase (runDirOf run_id) i ++ ".srt") else none),
            (List.range (nChunks renv run_id)).filterMap (fun i =>
              if (renv.engine i).jsonExists then
                some (transcriptBase (runDirOf run_id) i ++ ".json") else none),
            renv.duration⟩) := by
  have hcl := chunkLoop_ok renv.engine (runDirOf run_id) (nChunks renv run_id)
    (List.range (nChunks renv run_id))
    (fun i hi => hall i (List.mem_range.mp hi))
  unfold run_whisper
  rw [hex]
  simp only [nChunks] at hcl
  simp only [nChunks]
  rw [hcl]

/-- A failing chunk makes `run_whisper` raise that chunk's engine error. -/
theorem run_whisper_fail (renv : RunEnv) (language : Option String)
    (make_srt make_json : Bool) (run_id : String) (k : ℕ)
    (hex : renv.extractResult = .ok ())
    (hk : k < nChunks renv run_id)
    (hok : ∀ i, i < k → (renv.engine i).returncode = 0)
    (hfail : (renv.engine k).returncode ≠ 0) :
    ∃ evs, run_whisper renv language make_srt make_json run_id =
      (evs, .error (engineErr k (renv.engine k))) := by
  obtain ⟨evs, hcl⟩ := chunkLoop_fail renv.engine (runDirOf run_id)
    (nChunks renv run_id) k hok hfail (nChunks renv run_id) 0
    (Nat.zero_le k) (by omega)
  rw [← List.range_eq_range'] at hcl
  refine ⟨(5/100, "Extraction audio...") :: evs, ?_⟩
  unfold run_whisper
  rw [hex]
  dsimp only
  simp only [nChunks] at hcl
  rw [hcl]

/-- If `run_whisper` succeeds, the events it emitted have the fixed
extraction/per-chunk/finalisation shape. -/
theorem run_whisper_ok_events (renv : RunEnv) (language : Option String)
    (make_srt make_json : Bool) (run_id : String)
    (evs : List (ℚ × String)) (r : RWResult)
    (h : run_whisper renv language make_srt make_json run_id = (evs, .ok r)) :
    evs = (5/100, "Extraction audio...") ::
      ((List.range (nChunks renv run_id)).map (evChunk (nChunks renv run_id)) ++
        [(95/100, "Finalisation...")]) := by
  unfold run_whisper at h
  rcases hex : renv.extractResult with e | u
  · rw [hex] at h
    have h2 := congrArg Prod.snd h
    simp at h2
  · rw [hex] at h
    dsimp only at h
    rcases hst : chunkLoop renv.engine (runDirOf run_id)
      ((split_long_audio (runDirOf run_id ++ "/audio.wav") (runDirOf run_id)
        renv.duration 7200).length)
      (List.range ((split_long_audio (runDirOf run_id ++ "/audio.wav")
        (runDirOf run_id) renv.duration 7200).length)) with ⟨evs2, res2⟩
    rw [hst] at h
    rcases res2 with e | acc
    · have h2 := congrArg Prod.snd h
      simp at h2
    · have hevs := chunkLoop_ok_events renv.engine (runDirOf run_id)
        ((split_long_audio (runDirOf run_id ++ "/audio.wav") (runDirOf run_id)
          renv.duration 7200).length) _ evs2 acc hst
      have h1 := congrArg Prod.fst h
      simp only [nChunks]
      simp at h1
      rw [← h1, hevs]

/-! ## Claim C8: text aggregation -/

/-- C8: on a run whose engine invocations all succeed, the aggregated
transcript is exactly the present per-segment text artifacts, joined in
segment-index order with a blank-line separator; absent text artifacts
contribute nothing (`filterMap` drops them without a placeholder) and the
order is the chunk order. -/
theorem aggregate_join_in_order (renv : RunEnv) (language : Option String)
    (make_srt make_json : Bool) (run_id : String)
    (hex : renv.extractResult = .ok ())
    (hall : ∀ i, i < nChunks renv run_id → (renv.engine i).returncode = 0) :
    ∃ evs r, run_whisper renv language make_srt make_json run_id = (evs, .ok r) ∧
      r.text = String.intercalate "\n\n"
        ((List.range (nChunks renv run_id)).filterMap
          fun i => (renv.engine i).txtContent) :=
  ⟨_, _, run_whisper_ok renv language make_srt make_json run_id hex hall, rfl⟩

/-- Engine behaviour for the C8 witness: chunk 0 produced text, chunk 1
produced none, chunk 2 produced text; all exits zero. -/
def engAgg : ℕ → EngineResult := fun i =>
  if i = 0 then ⟨0, "", "", some "bonjour", true, false⟩
  else if i = 1 then ⟨0, "", "", none, false, false⟩
  else ⟨0, "", "", some "monde", false, true⟩

/-- Run environment for the C8 witness: 20000 s of audio → 3 chunks. -/
def renvAgg : RunEnv := ⟨.ok (), 20000, engAgg⟩

/-- Witness for C8: three chunks, the middle one without a text artifact. -/
theorem aggregate_join_in_order_witness :
    renvAgg.extractResult = .ok () ∧
    (∀ i, i < nChunks renvAgg "r" → (renvAgg.engine i).returncode = 0) ∧
    ∃ evs r, run_whisper renvAgg (some "fr") true false "r" = (evs, .ok r) ∧
      r.text = String.intercalate "\n\n"
        ((List.range (nChunks renvAgg "r")).filterMap
          fun i => (renvAgg.engine i).txtContent) :=
  ⟨rfl, by decide,
    aggregate_join_in_order renvAgg (some "fr") true false "r" rfl (by decide)⟩

/-! ## Claim C2: engine failure loses the partial transcript -/

/-- Engine behaviour for the C2 counterexample: chunk 0 succeeds with text
content, chunk 1 exits 1 with diagnostic output. -/
def engC2 : ℕ → EngineResult := fun i =>
  if i = 0 then ⟨0, "", "", some "hello", false, false⟩
  else ⟨1, "", "boom", none, false, false⟩

/-- Call environment for the C2 counterexample: everything in place,
9000 s of audio → 2 chunks, second chunk fails. -/
def envC2 : TEnv :=
  ⟨true, true, .error "unused", ⟨.ok (), 9000, engC2⟩, ⟨false, false, false, false⟩, none⟩

/-- Counterexample to C2 as stated: after chunk 0 already produced the text
"hello", chunk 1's engine failure makes `transcribe` return only the error
description — the full returned value is the error text with every artifact
reference `None`, and the partial transcript "hello" occurs nowhere in the
returned text. -/
theorem transcribe_engine_failure_drops_partial_text :
    (transcribe envC2 (some "a.wav") none (some "fr") true false true []
        "20250101_000000" "00:00:00").text =
      "Erreur pendant le traitement : Erreur WhisperCLI (chunk 2):\nboom" ∧
    (transcribe envC2 (some "a.wav") none (some "fr") true false true []
        "20250101_000000" "00:00:00").txtRef = none ∧
    (transcribe envC2 (some "a.wav") none (some "fr") true false true []
        "20250101_000000" "00:00:00").srtRef = none ∧
    (transcribe envC2 (some "a.wav") none (some "fr") true false true []
        "20250101_000000" "00:00:00").pdfRef = none ∧
    (transcribe envC2 (some "a.wav") none (some "fr") true false true []
        "20250101_000000" "00:00:00").jsonRef = none ∧
    (transcribe envC2 (some "a.wav") none (some "fr") true false true []
        "20250101_000000" "00:00:00").history = [] ∧
    (transcribe envC2 (some "a.wav") none (some "fr") true false true []
        "20250101_000000" "00:00:00").success = false ∧
    ¬ List.IsInfix "hello".data
      (transcribe envC2 (some "a.wav") none (some "fr") true false true []
        "20250101_000000" "00:00:00").text.data := by
  refine ⟨?_, ?_, ?_, ?_, ?_, ?_, ?_, ?_⟩ <;> decide

/-- C2 as amended: when the engine fails on segment `k` after the earlier
segments succeeded, `transcribe` returns a clear error description naming
the failing chunk and carrying the engine diagnostics, but the partial
transcript is absent from the returned result: the text field is exactly
the error, every artifact reference is `None` and the history is returned
unchanged (the earlier segments' artifact files persist on disk in the run
directory but are not surfaced). -/
theorem transcribe_engine_failure_error_only (env : TEnv)
    (media_file youtube_url language : Option String)
    (make_srt make_json make_pdf : Bool) (history : List String)
    (run_id nowHMS : String) (k : ℕ)
    (hbin : env.binExists = true) (hmodel : env.modelExists = true)
    (hurl : urlRequested youtube_url = false)
    (hmedia : strTruthy media_file = true)
    (hex : env.run.extractResult = .ok ())
    (hk : k < nChunks env.run run_id)
    (hok : ∀ i, i < k → (env.run.engine i).returncode = 0)
    (hfail : (env.run.engine k).returncode ≠ 0) :
    ∃ events,
      transcribe env media_file youtube_url language make_srt make_json make_pdf
          history run_id nowHMS =
        ⟨"Erreur pendant le traitement : " ++ engineErr k (env.run.engine k),
         none, none, none, none, history, "", false, events⟩ := by
  obtain ⟨evs, hrw⟩ :=
    run_whisper_fail env.run language make_srt make_json run_id k hex hk hok hfail
  refine ⟨[(1/100, "Préparation...")] ++ evs, ?_⟩
  simp only [transcribe, hbin, hmodel, Bool.not_true, Bool.false_eq_true,
    if_false, hurl, hmedia, if_true, pipelineTail, hrw]

/-- Witness for the amended C2 at the concrete failing run of `envC2`. -/
theorem transcribe_engine_failure_error_only_witness :
    (envC2.binExists = true ∧ envC2.modelExists = true ∧
     urlRequested none = false ∧ strTruthy (some "a.wav") = true ∧
     envC2.run.extractResult = .ok () ∧ 1 < nChunks envC2.run "rid" ∧
     (∀ i, i < 1 → (envC2.run.engine i).returncode = 0) ∧
     (envC2.run.engine 1).returncode ≠ 0) ∧
    ∃ events,
      transcribe envC2 (some "a.wav") none (some "fr") true false true [] "rid" "00:00:00" =
        ⟨"Erreur pendant le traitement : " ++ engineErr 1 (envC2.run.engine 1),
         none, none, none, none, [], "", false, events⟩ :=
  ⟨⟨rfl, rfl, rfl, rfl, rfl, by decide, by decide, by decide⟩,
    transcribe_engine_failure_error_only envC2 (some "a.wav") none (some "fr")
      true false true [] "rid" "00:00:00" 1 rfl rfl rfl rfl rfl
      (by decide) (by decide) (by decide)⟩

/-! ## Claim C10: fatal failures leave history untouched, no artifacts -/

/-- On every non-successful outcome of the pipeline tail, the incoming
history is returned unchanged and all four artifact references are `None`. -/
theorem pipelineTail_fail (env : TEnv) (language : Option String)
    (make_srt make_json make_pdf : Bool) (history : List String)
    (run_id nowHMS sourceDesc : String) (ev : List (ℚ × String))
    (h : (pipelineTail env language make_srt make_json make_pdf history
            run_id nowHMS sourceDesc ev).success = false) :
    (pipelineTail env language make_srt make_json make_pdf history
        run_id nowHMS sourceDesc ev).history = history ∧
    (pipelineTail env language make_srt make_json make_pdf history
        run_id nowHMS sourceDesc ev).txtRef = none ∧
    (pipelineTail env language make_srt make_json make_pdf history
        run_id nowHMS sourceDesc ev).srtRef = none ∧
    (pipelineTail env language make_srt make_json make_pdf history
        run_id nowHMS sourceDesc ev).pdfRef = none ∧
    (pipelineTail env language make_srt make_json make_pdf history
        run_id nowHMS sourceDesc ev).jsonRef = none := by
  rcases hrw : run_whisper env.run language make_srt make_json run_id with ⟨evs, res⟩
  rcases res with e | r
  · have hcomp : pipelineTail env language make_srt make_json make_pdf history
        run_id nowHMS sourceDesc ev =
        ⟨"Erreur pendant le traitement : " ++ e, none, none, none, none,
         history, "", false, ev ++ evs⟩ := by
      unfold pipelineTail
      rw [hrw]
    rw [hcomp]
    exact ⟨rfl, rfl, rfl, rfl, rfl⟩
  · rcases hpdf : (if make_pdf then env.pdfWriteError else none) with _ | e
    · have hcomp : (pipelineTail env language make_srt make_json make_pdf history
          run_id nowHMS sourceDesc ev).success = true := by
        unfold pipelineTail
        rw [hrw]
        dsimp only
        rw [hpdf]
      rw [hcomp] at h
      exact absurd h (by simp)
    · have hcomp : pipelineTail env language make_srt make_json make_pdf history
          run_id nowHMS sourceDesc ev =
          ⟨"Erreur pendant le traitement : " ++ e, none, none, none, none,
           history, "", false, ev ++ evs⟩ := by
        unfold pipelineTail
        rw [hrw]
        dsimp only
        rw [hpdf]
      rw [hcomp]
      exact ⟨rfl, rfl, rfl, rfl, rfl⟩

/-- C10: every `transcribe` invocation that does not reach the single
successful return — missing binary, missing model, neither file nor URL
given, or any exception raised during the pipeline — returns the input
history unchanged and `None` for every artifact reference. -/
theorem transcribe_failure_preserves_history (env : TEnv)
    (media_file youtube_url language : Option String)
    (make_srt make_json make_pdf : Bool) (history : List String)
    (run_id nowHMS : String)
    (hfail : (transcribe env media_file youtube_url language make_srt make_json
                make_pdf history run_id nowHMS).success = false) :
    (transcribe env media_file youtube_url language make_srt make_json
        make_pdf history run_id nowHMS).history = history ∧
    (transcribe env media_file youtube_url language make_srt make_json
        make_pdf history run_id nowHMS).txtRef = none ∧
    (transcribe env media_file youtube_url language make_srt make_json
        make_pdf history run_id nowHMS).srtRef = none ∧
    (transcribe env media_file youtube_url language make_srt make_json
        make_pdf history run_id nowHMS).pdfRef = none ∧
    (transcribe env media_file youtube_url language make_srt make_json
        make_pdf history run_id nowHMS).jsonRef = none := by
  cases hbin : env.binExists
  · simp [transcribe, hbin]
  · cases hmodel : env.modelExists
    · simp [transcribe, hbin, hmodel]
    · cases hurl : urlRequested youtube_url
      · cases hmedia : strTruthy media_file
        · simp [transcribe, hbin, hmodel, hurl, hmedia]
        · simp only [transcribe, hbin, hmodel, Bool.not_true, Bool.false_eq_true,
            if_false, hurl, hmedia, if_true] at hfail ⊢
          exact pipelineTail_fail env language make_srt make_json make_pdf
            history run_id nowHMS _ _ hfail
      · rcases hdl : env.download with e | p
        · simp [transcribe, hbin, hmodel, hurl, hdl]
        · simp only [transcribe, hbin, hmodel, Bool.not_true, Bool.false_eq_true,
            if_false, hurl, if_true, hdl] at hfail ⊢
          exact pipelineTail_fail env language make_srt make_json make_pdf
            history run_id nowHMS _ _ hfail

/-- Witness for C10: missing engine binary. -/
theorem transcribe_failure_preserves_history_witness :
    (transcribe ⟨false, true, .error "x", ⟨.ok (), 10, engC2⟩,
        ⟨false, false, false, false⟩, none⟩ (some "a.wav") none (some "fr")
        true false true ["old"] "rid" "00:00:00").success = false ∧
    ((transcribe ⟨false, true, .error "x", ⟨.ok (), 10, engC2⟩,
        ⟨false, false, false, false⟩, none⟩ (some "a.wav") none (some "fr")
        true false true ["old"] "rid" "00:00:00").history = ["old"] ∧
     (transcribe ⟨false, true, .error "x", ⟨.ok (), 10, engC2⟩,
        ⟨false, false, false, false⟩, none⟩ (some "a.wav") none (some "fr")
        true false true ["old"] "rid" "00:00:00").txtRef = none ∧
     (transcribe ⟨false, true, .error "x", ⟨.ok (), 10, engC2⟩,
        ⟨false, false, false, false⟩, none⟩ (some "a.wav") none (some "fr")
        true false true ["old"] "rid" "00:00:00").srtRef = none ∧
     (transcribe ⟨false, true, .error "x", ⟨.ok (), 10, engC2⟩,
        ⟨false, false, false, false⟩, none⟩ (some "a.wav") none (some "fr")
        true false true ["old"] "rid" "00:00:00").pdfRef = none ∧
     (transcribe ⟨false, true, .error "x", ⟨.ok (), 10, engC2⟩,
        ⟨false, false, false, false⟩, none⟩ (some "a.wav") none (some "fr")
        true false true ["old"] "rid" "00:00:00").jsonRef = none) :=
  ⟨rfl, transcribe_failure_preserves_history _ (some "a.wav") none (some "fr")
    true false true ["old"] "rid" "00:00:00" rfl⟩

/-! ## Claim C3: run-identifier collisions -/

/-- Evaluation of the run-directory allocation at the C3 failing input: a
second run started in the same second maps to the same identifier
`20250101_120000`; `mkdir(exist_ok=True)` silently reuses the existing
working directory and reports success — no `RunIdCollision`-style failure
exists anywhere in the code. -/
theorem run_dir_collision_silent_reuse :
    mkRunDir [runDirOf "20250101_120000"] "20250101_120000" =
      .ok (runDirOf "20250101_120000", [runDirOf "20250101_120000"]) := rfl

/-! ## Claim C9: document renderer degrades gracefully -/

/-- C9: `make_pdf_from_text` always produces the document at
`run_dir/transcript.pdf`, for every asset situation and every transcript;
a missing logo means no logo is drawn, and each failed Roboto load falls
back to the built-in Helvetica for the corresponding font without failing
the render. -/
theorem make_pdf_fallback (assets : PdfAssets) (text run_dir : String) :
    (make_pdf_from_text assets text run_dir).path = run_dir ++ "/transcript.pdf" ∧
    (assets.logoExists = false →
      (make_pdf_from_text assets text run_dir).hasLogo = false) ∧
    (assets.robotoBoldOk = false →
      (make_pdf_from_text assets text run_dir).titleFont = ("Helvetica", "B")) ∧
    (assets.robotoRegularOk = false →
      (make_pdf_from_text assets text run_dir).bodyFont = ("Helvetica", "")) := by
  refine ⟨rfl, ?_, ?_, ?_⟩
  · intro h
    simp [make_pdf_from_text, h]
  · intro h
    simp [make_pdf_from_text, h]
  · intro h
    simp [make_pdf_from_text, h]

/-- Witness for C9: no optional asset present at all — the render still
yields the document, with Helvetica everywhere and no logo. -/
theorem make_pdf_fallback_witness :
    (make_pdf_from_text ⟨false, false, false, false⟩ "salut" "outputs/r").path =
      "outputs/r/transcript.pdf" ∧
    (make_pdf_from_text ⟨false, false, false, false⟩ "salut" "outputs/r").hasLogo = false ∧
    (make_pdf_from_text ⟨false, false, false, false⟩ "salut" "outputs/r").titleFont =
      ("Helvetica", "B") ∧
    (make_pdf_from_text ⟨false, false, false, false⟩ "salut" "outputs/r").bodyFont =
      ("Helvetica", "") :=
  ⟨(make_pdf_fallback ⟨false, false, false, false⟩ "salut" "outputs/r").1,
   (make_pdf_fallback ⟨false, false, false, false⟩ "salut" "outputs/r").2.1 rfl,
   (make_pdf_fallback ⟨false, false, false, false⟩ "salut" "outputs/r").2.2.1 rfl,
   (make_pdf_fallback ⟨false, false, false, false⟩ "salut" "outputs/r").2.2.2 rfl⟩

/-! ## Claim C5: progress is monotone and ends at 1 -/

/-- The fractions a fully successful run emits, in order: preparation
(0.01), the optional download event (0.05), extraction (0.05), one value
`0.1 + 0.8·(i / max(n,1))` per chunk `i`, finalisation (0.95) and
completion (1). -/
def successFracs (dl : Bool) (n : ℕ) : List ℚ :=
  [1/100] ++ (if dl then [(5 : ℚ)/100] else []) ++ [5/100] ++
    ((List.range n).map fun i => (evChunk n i).1) ++ [95/100, 1]

/-- Every per-chunk fraction lies in `[0.1, 0.9]`. -/
theorem evChunk_frac_bounds (n i : ℕ) (hn : 1 ≤ n) (hi : i < n) :
    1/10 ≤ (evChunk n i).1 ∧ (evChunk n i).1 ≤ 9/10 := by
  have hmax : max n 1 = n := Nat.max_eq_left hn
  have hc : (0 : ℚ) < ((max n 1 : ℕ) : ℚ) := by
    rw [hmax]
    exact_mod_cast Nat.lt_of_lt_of_le Nat.zero_lt_one hn
  unfold evChunk
  dsimp only
  constructor
  · have h0 : (0 : ℚ) ≤ 8/10 * ((i : ℚ) / ((max n 1 : ℕ) : ℚ)) := by positivity
    linarith
  · have h1 : (i : ℚ) / ((max n 1 : ℕ) : ℚ) ≤ 1 := by
      rw [div_le_one hc, hmax]
      exact_mod_cast hi.le
    have h2 : 8/10 * ((i : ℚ) / ((max n 1 : ℕ) : ℚ)) ≤ 8/10 :=
      mul_le_of_le_one_right (by norm_num) h1
    linarith

/-- The per-chunk fraction is monotone in the chunk index. -/
theorem evChunk_frac_mono (n i j : ℕ) (hij : i ≤ j) :
    (evChunk n i).1 ≤ (evChunk n j).1 := by
  have hc : (0 : ℚ) < ((max n 1 : ℕ) : ℚ) := by
    exact_mod_cast Nat.lt_of_lt_of_le Nat.zero_lt_one (le_max_right n 1)
  have hij' : (i : ℚ) ≤ (j : ℚ) := by exact_mod_cast hij
  unfold evChunk
  dsimp only
  gcongr

/-- The emitted fraction sequence of a successful run is non-decreasing and
ends at exactly 1. -/
theorem successFracs_sorted (dl : Bool) (n : ℕ) (hn : 1 ≤ n) :
    List.Chain' (· ≤ ·) (successFracs dl n) ∧
    (successFracs dl n).getLast? = some 1 := by
  have hM : ∀ x ∈ (List.range n).map (fun i => (evChunk n i).1),
      1/10 ≤ x ∧ x ≤ 9/10 := by
    intro x hx
    obtain ⟨i, hi, rfl⟩ := List.mem_map.mp hx
    exact evChunk_frac_bounds n i hn (List.mem_range.mp hi)
  have hMp : List.Pairwise (· ≤ ·) ((List.range n).map fun i => (evChunk n i).1) :=
    List.Pairwise.map _ (fun a b hab => evChunk_frac_mono n a b hab.le)
      (List.sorted_lt_range n)
  constructor
  · rw [List.chain'_iff_pairwise]
    unfold successFracs
    rw [List.pairwise_append]
    refine ⟨?_, ?_, ?_⟩
    · rw [List.pairwise_append]
      refine ⟨?_, hMp, ?_⟩
      · rw [List.pairwise_append]
        refine ⟨?_, by simp, ?_⟩
        · rw [List.pairwise_append]
          refine ⟨by simp, ?_, ?_⟩
          · cases dl <;> simp
          · intro x hx y hy
            cases dl
            · simp at hy
            · simp at hx hy
              rw [hx, hy]
              norm_num
        · intro x hx y hy
          simp at hy
          rw [hy]
          rcases List.mem_append.mp hx with h1 | h2
          · simp at h1
            rw [h1]
            norm_num
          · cases dl
            · simp at h2
            · simp at h2
              rw [h2]
      · intro x hx y hy
        have hy' := (hM y hy).1
        have hx' : x ≤ 1/10 := by
          rcases List.mem_append.mp hx with h1 | h2
          · rcases List.mem_append.mp h1 with h3 | h4
            · simp at h3
              rw [h3]
              norm_num
            · cases dl
              · simp at h4
              · simp at h4
                rw [h4]
                norm_num
          · simp at h2
            rw [h2]
            norm_num
        linarith
    · norm_num [List.pairwise_cons]
    · intro x hx y hy
      have hx' : x ≤ 9/10 := by
        rcases List.mem_append.mp hx with h1 | hM2
        · rcases List.mem_append.mp h1 with h3 | h4
          · rcases List.mem_append.mp h3 with h5 | h6
            · simp at h5
              rw [h5]
              norm_num
            · cases dl
              · simp at h6
              · simp at h6
                rw [h6]
                norm_num
          · simp at h4
            rw [h4]
            norm_num
        · exact (hM x hM2).2
      have hy' : y = 95/100 ∨ y = 1 := by simpa using hy
      rcases hy' with rfl | rfl <;> linarith
  · unfold successFracs
    rw [List.getLast?_append_of_ne_nil _ (by simp)]
    rfl

/-- On a successful pipeline tail, the emitted events are the incoming
prefix, the `run_whisper` events and the terminal completion event. -/
theorem pipelineTail_success_events (env : TEnv) (language : Option String)
    (make_srt make_json make_pdf : Bool) (history : List String)
    (run_id nowHMS sourceDesc : String) (ev : List (ℚ × String))
    (h : (pipelineTail env language make_srt make_json make_pdf history
            run_id nowHMS sourceDesc ev).success = true) :
    (pipelineTail env language make_srt make_json make_pdf history
        run_id nowHMS sourceDesc ev).events =
      ev ++ ((5/100, "Extraction audio...") ::
        ((List.range (nChunks env.run run_id)).map (evChunk (nChunks env.run run_id)) ++
          [(95/100, "Finalisation...")])) ++ [(1, "Terminé ✅")] := by
  rcases hrw : run_whisper env.run language make_srt make_json run_id with ⟨evs, res⟩
  rcases res with e | r
  · have hcomp : (pipelineTail env language make_srt make_json make_pdf history
        run_id nowHMS sourceDesc ev).success = false := by
      unfold pipelineTail
      rw [hrw]
    rw [hcomp] at h
    exact absurd h (by simp)
  · rcases hpdf : (if make_pdf then env.pdfWriteError else none) with _ | e
    · have hevs := run_whisper_ok_events env.run language make_srt make_json
        run_id evs r hrw
      have hcomp : (pipelineTail env language make_srt make_json make_pdf history
          run_id nowHMS sourceDesc ev).events = (ev ++ evs) ++ [(1, "Terminé ✅")] := by
        unfold pipelineTail
        rw [hrw]
        dsimp only
        rw [hpdf]
      rw [hcomp, hevs]
    · have hcomp : (pipelineTail env language make_srt make_json make_pdf history
          run_id nowHMS sourceDesc ev).success = false := by
        unfold pipelineTail
        rw [hrw]
        dsimp only
        rw [hpdf]
      rw [hcomp] at h
      exact absurd h (by simp)

/-- On a successful `transcribe` call, the emitted fraction sequence is
exactly `successFracs` for the run's chunk count, with the download event
present iff the source was a URL. -/
theorem transcribe_success_shape (env : TEnv)
    (media_file youtube_url language : Option String)
    (make_srt make_json make_pdf : Bool) (history : List String)
    (run_id nowHMS : String)
    (h : (transcribe env media_file youtube_url language make_srt make_json
            make_pdf history run_id nowHMS).success = true) :
    ∃ dl, ((transcribe env media_file youtube_url language make_srt make_json
        make_pdf history run_id nowHMS).events).map Prod.fst =
      successFracs dl (nChunks env.run run_id) := by
  cases hbin : env.binExists
  · simp [transcribe, hbin] at h
  · cases hmodel : env.modelExists
    · simp [transcribe, hbin, hmodel] at h
    · cases hurl : urlRequested youtube_url
      · cases hmedia : strTruthy media_file
        · simp [transcribe, hbin, hmodel, hurl, hmedia] at h
        · refine ⟨false, ?_⟩
          simp only [transcribe, hbin, hmodel, Bool.not_true, Bool.false_eq_true,
            if_false, hurl, hmedia, if_true] at h ⊢
          rw [pipelineTail_success_events env language make_srt make_json make_pdf
            history run_id nowHMS _ _ h]
          simp [successFracs, List.map_append, List.map_map, Function.comp]
      · rcases hdl : env.download with e | p
        · simp [transcribe, hbin, hmodel, hurl, hdl] at h
        · refine ⟨true, ?_⟩
          simp only [transcribe, hbin, hmodel, Bool.not_true, Bool.false_eq_true,
            if_false, hurl, if_true, hdl] at h ⊢
          rw [pipelineTail_success_events env language make_srt make_json make_pdf
            history run_id nowHMS _ _ h]
          simp [successFracs, List.map_append, List.map_map, Function.comp]

/-- C5: on every successful run, the sequence of progress fractions emitted
(preparation, optional download, extraction, the per-segment values
`0.1 + 0.8·(i/n)` in segment order, finalisation at 0.95, completion) is
non-decreasing and the final emitted fraction is exactly 1. -/
theorem transcribe_progress_monotone (env : TEnv)
    (media_file youtube_url language : Option String)
    (make_srt make_json make_pdf : Bool) (history : List String)
    (run_id nowHMS : String)
    (hsucc : (transcribe env media_file youtube_url language make_srt make_json
                make_pdf history run_id nowHMS).success = true) :
    List.Chain' (· ≤ ·) (((transcribe env media_file youtube_url language
      make_srt make_json make_pdf history run_id nowHMS).events).map Prod.fst) ∧
    (((transcribe env media_file youtube_url language make_srt make_json
      make_pdf history run_id nowHMS).events).map Prod.fst).getLast? = some 1 := by
  obtain ⟨dl, hsh⟩ := transcribe_success_shape env media_file youtube_url language
    make_srt make_json make_pdf history run_id nowHMS hsucc
  rw [hsh]
  exact successFracs_sorted dl (nChunks env.run run_id) (nChunks_pos env.run run_id)

/-- Engine behaviour for the C5 witness: every chunk succeeds with text. -/
def engOk : ℕ → EngineResult := fun _ => ⟨0, "", "", some "salut", false, false⟩

/-- Call environment for the C5 witness: a short upload that succeeds. -/
def envC5 : TEnv :=
  ⟨true, true, .error "unused", ⟨.ok (), 10, engOk⟩, ⟨false, false, false, false⟩, none⟩

/-- Witness for C5: a concrete successful run. -/
theorem transcribe_progress_monotone_witness :
    (transcribe envC5 (some "a.wav") none (some "fr") true false false []
        "rid" "00:00:00").success = true ∧
    (List.Chain' (· ≤ ·) (((transcribe envC5 (some "a.wav") none (some "fr")
        true false false [] "rid" "00:00:00").events).map Prod.fst) ∧
     (((transcribe envC5 (some "a.wav") none (some "fr") true false false []
        "rid" "00:00:00").events).map Prod.fst).getLast? = some 1) :=
  ⟨by decide, transcribe_progress_monotone envC5 (some "a.wav") none (some "fr")
    true false false [] "rid" "00:00:00" (by decide)⟩

end WhisperStudio
